import Mathlib

/-!
Shallow embedding of `src/ir/ty.rs` of rust-bindgen: the `Type`/`TypeKind`
data model, the four derivability predicates, and `Type::from_clang_ty`
(ingestion of a foreign clang type description into the IR).

The predicates in the source recurse through a `TypeResolver`; here the
recursion is made total with an explicit fuel argument that is decremented
exactly where the source makes a recursive call through the resolver.
Fuel-exhaustion values are chosen conservatively (`false` for the three
derive predicates, `true` for `has_destructor`) and every theorem below is
stated at successor fuel, so no result rests on the exhaustion value.
-/

namespace Bindgen

/-- `Layout`: a plain (size, alignment) value, an external leaf. -/
structure Layout where
  size : Nat
  align : Nat
deriving DecidableEq, Repr

/-- `ItemId`: the opaque handle of an IR node in the central registry. -/
abbrev ItemId := Nat

/-- Modelled from the spec: `IntKind` (`super::int::IntKind`, not among the
analysed sources) is an integer-kind tag; only its identity matters here. -/
structure IntKind where
  tag : Nat
deriving DecidableEq, Repr

/-- `FloatKind` from the source: `Float`, `Double`, `LongDouble`. -/
inductive FloatKind where
  | Float
  | Double
  | LongDouble
deriving DecidableEq, Repr

/-- Modelled from the spec: `FunctionSig` (external signature model, not among
the analysed sources); only its identity matters here. -/
structure FunctionSig where
  tag : Nat
deriving DecidableEq, Repr

/-- Modelled from the spec: the external enum model (`super::enum_ty::Enum`,
not among the analysed sources); only its identity matters here. -/
structure EnumTy where
  tag : Nat
deriving DecidableEq, Repr

/-- Modelled from the spec: `CompInfo` is the composite (struct/union/class)
description, an external collaborator that owns its own member logic.  The
derivability predicates of this file delegate to it, so it is modelled by the
answers it gives to the three delegated questions, plus its self-computed
layout. -/
structure CompInfo where
  canDeriveDebug : Bool
  canDeriveCopy : Bool
  hasDestructor : Bool
  selfLayout : Option Layout
deriving DecidableEq, Repr

/-- `TypeKind` from the source: the closed set of IR type variants. -/
inductive TypeKind where
  | Void
  | NullPtr
  | Comp (info : CompInfo)
  | Int (ik : IntKind)
  | Float (fk : FloatKind)
  | Alias (name : String) (t : ItemId)
  | Array (t : ItemId) (len : Nat)
  | Function (sig : FunctionSig)
  | Enum (e : EnumTy)
  | Pointer (t : ItemId)
  | Reference (t : ItemId)
  | Named (name : String)
deriving DecidableEq, Repr

/-- `Type` from the source (`Type` is reserved in Lean, hence `Ty`): a named,
laid-out, flagged wrapper around a `TypeKind`.  `opaqueFlag` is the source's
`opaque` field. -/
structure Ty where
  name : Option String
  layout : Option Layout
  opaqueFlag : Bool
  hide : Bool
  kind : TypeKind
  is_toplevel : Bool
deriving DecidableEq, Repr

/-- `Type::new`: constructs a type with default flags. -/
def Ty.new (name : Option String) (layout : Option Layout) (kind : TypeKind) : Ty :=
  ⟨name, layout, false, false, kind, false⟩

/-- `TypeResolver`: the registry capability mapping an `ItemId` to its `Ty`.
The spec's invariant that every referenced id is resolvable is modelled by
making the resolver total. -/
abbrev TypeResolver := ItemId → Ty

/-- `TypeResolver::resolve_type`. -/
def resolve_type (r : TypeResolver) (id : ItemId) : Ty := r id

/-- `RUST_DERIVE_IN_ARRAY_LIMIT` from the source. -/
def RUST_DERIVE_IN_ARRAY_LIMIT : Nat := 32

/-- `Type::is_opaque`: reads the flag, ignoring the resolver. -/
def Ty.isOpaque (t : Ty) (_r : TypeResolver) : Bool := t.opaqueFlag

/-- `Type::can_derive_debug`, with fuel decremented at each recursive call
through the resolver. -/
def can_derive_debug (r : TypeResolver) : Nat → Ty → Bool
  | 0, _ => false
  | fuel + 1, t =>
    !(t.isOpaque r) &&
      (match t.kind with
       | .Array e len =>
           decide (len ≤ RUST_DERIVE_IN_ARRAY_LIMIT) &&
             can_derive_debug r fuel (resolve_type r e)
       | .Alias _ target => can_derive_debug r fuel (resolve_type r target)
       | .Comp info => info.canDeriveDebug
       | _ => true)

/-- `Type::can_derive_copy`, with fuel decremented at each recursive call
through the resolver. -/
def can_derive_copy (r : TypeResolver) : Nat → Ty → Bool
  | 0, _ => false
  | fuel + 1, t =>
    !(t.isOpaque r) &&
      (match t.kind with
       | .Array e len =>
           decide (len ≤ RUST_DERIVE_IN_ARRAY_LIMIT) &&
             can_derive_copy r fuel (resolve_type r e)
       | .Alias _ target => can_derive_copy r fuel (resolve_type r target)
       | .Comp info => info.canDeriveCopy
       | _ => true)

/-- `Type::can_derive_copy_in_array`: recurses into `Alias` targets and
`Array` elements with itself, answers `false` on `Named`, and defers to
`can_derive_copy` on the same type otherwise (that call is not through the
resolver, so it keeps the full fuel). -/
def can_derive_copy_in_array (r : TypeResolver) : Nat → Ty → Bool
  | 0, _ => false
  | fuel + 1, t =>
    match t.kind with
    | .Alias _ target =>
        can_derive_copy_in_array r fuel (resolve_type r target)
    | .Array e _ =>
        can_derive_copy_in_array r fuel (resolve_type r e)
    | .Named _ => false
    | _ => can_derive_copy r (fuel + 1) t

/-- `Type::has_destructor`, with fuel decremented at each recursive call
through the resolver. -/
def has_destructor (r : TypeResolver) : Nat → Ty → Bool
  | 0, _ => true
  | fuel + 1, t =>
    t.isOpaque r ||
      (match t.kind with
       | .Alias _ target => has_destructor r fuel (resolve_type r target)
       | .Array e _ => has_destructor r fuel (resolve_type r e)
       | .Comp info => info.hasDestructor
       | _ => false)

/-- The resolver edges the four derivability predicates recurse through:
only `Alias` targets and `Array` elements.  `Pointer` and `Reference`
payloads are deliberately absent. -/
def deriveEdges : TypeKind → List ItemId
  | .Alias _ target => [target]
  | .Array e _ => [e]
  | _ => []

/-- The foreign (clang) type kinds this core dispatches on.  The unbounded
external enumeration is translated at this boundary: every kind outside the
explicitly handled set is `Other`. -/
inductive CXTypeKind where
  | Invalid
  | Pointer
  | LValueReference
  | VariableArray
  | DependentSizedArray
  | IncompleteArray
  | FunctionProto
  | Record
  | Typedef
  | Unexposed
  | Enum
  | ConstantArray
  | Elaborated
  | Other (code : Nat)
deriving DecidableEq, Repr

/-- A foreign type description (`clang::Type`): kind, fallible layout,
declaration cursor (modelled as a number), pointee type, element type,
declared array size, de-sugared named type (present for every genuine
elaborated type), and spelling. -/
inductive ClangType where
  | mk (kind : CXTypeKind) (lay : Option Layout) (decl : Nat)
       (pointee : Option ClangType) (elem : Option ClangType)
       (asize : Nat) (namedTy : Option ClangType) (spell : String)

/-- A placeholder foreign type, returned by the pointee/element accessors
when the description carries none (the real API returns an unspecified
value there; nothing in this file depends on it). -/
def ClangType.junk : ClangType :=
  .mk (.Other 0) none 0 none none 0 none ""

def ClangType.kind : ClangType → CXTypeKind
  | .mk k _ _ _ _ _ _ _ => k

/-- `clang::Type::fallible_layout().ok()`: the opportunistically computed
layout, `none` when it could not be computed. -/
def ClangType.fallible_layout : ClangType → Option Layout
  | .mk _ l _ _ _ _ _ _ => l

/-- `clang::Type::declaration()`. -/
def ClangType.declaration : ClangType → Nat
  | .mk _ _ d _ _ _ _ _ => d

/-- `clang::Type::pointee_type()`. -/
def ClangType.pointee_type : ClangType → ClangType
  | .mk _ _ _ p _ _ _ _ => p.getD ClangType.junk

/-- `clang::Type::elem_type()`. -/
def ClangType.elem_type : ClangType → ClangType
  | .mk _ _ _ _ e _ _ _ => e.getD ClangType.junk

/-- `clang::Type::array_size()`: the declared element count. -/
def ClangType.array_size : ClangType → Nat
  | .mk _ _ _ _ _ s _ _ => s

/-- `clang::Type::named()`, as an option: `some` for every genuine
elaborated type. -/
def ClangType.namedOpt : ClangType → Option ClangType
  | .mk _ _ _ _ _ _ n _ => n

/-- `clang::Type::spelling()`. -/
def ClangType.spelling : ClangType → String
  | .mk _ _ _ _ _ _ _ sp => sp

/-- Modelled from the spec: the slice of the mutable build context
(`BindgenContext`, not among the analysed sources) that `from_clang_ty`
itself reads — the dedup lookup `builtin_or_resolved_ty`. -/
structure BindgenContext where
  builtin_or_resolved_ty : ClangType → Option ItemId

/-- `TypeResult` from the source. -/
inductive TypeResult where
  | AlreadyResolved (id : ItemId)
  | New (t : Ty) (decl : Nat)

/-- `ParseError` (from `parse.rs`, used by this file): `Recurse` is the
"retry via declaration" recoverable failure, `Continue` the "skip"
recoverable failure. -/
inductive ParseError where
  | Recurse
  | Continue
deriving DecidableEq, Repr

/-- The outcome of `Type::from_clang_ty`.  Besides the declared
`Result<TypeResult, ParseError>` (constructors `ok` and `err`), the source
can leave the function through `return None;` on an invalid type — an ad hoc
escape that does not fit the declared result type — and through
`.expect(...)` aborts when a nested resolution fails; those two escapes are
modelled as the last two constructors. -/
inductive FromClangResult where
  | ok (r : TypeResult)
  | err (e : ParseError)
  | noneEscape (spelling : String)
  | panicked (msg : String)

/-- `Item::from_ty` and `FunctionSig::from_ty` are external collaborators
that may register new items (mutating the context); `from_clang_ty` is
parametrised over them.  `none` models the failure their `.expect` calls
abort on. -/
abbrev ItemFromTy := ClangType → BindgenContext → Option (ItemId × BindgenContext)

abbrev SigFromTy := ClangType → Nat → BindgenContext → Option (FunctionSig × BindgenContext)

/-- `Type::from_clang_ty`: checks the dedup lookup first, then dispatches on
the foreign kind, threading the mutable context. -/
def from_clang_ty (ift : ItemFromTy) (sft : SigFromTy) :
    ClangType → BindgenContext → FromClangResult × BindgenContext
  | ty@(.mk kind lay decl pointee elem asize namedTy spell), ctx =>
    match ctx.builtin_or_resolved_ty ty with
    | some id => (.ok (.AlreadyResolved id), ctx)
    | none =>
      match kind with
      | .Invalid => (.noneEscape spell, ctx)
      | .Pointer =>
          match ift (pointee.getD ClangType.junk) ctx with
          | some (inner, ctx2) =>
              (.ok (.New (Ty.new none lay (.Pointer inner)) decl), ctx2)
          | none => (.panicked "Not able to resolve pointee?", ctx)
      | .LValueReference =>
          match ift (pointee.getD ClangType.junk) ctx with
          | some (inner, ctx2) =>
              (.ok (.New (Ty.new none lay (.Reference inner)) decl), ctx2)
          | none => (.panicked "Not able to resolve pointee?", ctx)
      | .VariableArray =>
          match ift (elem.getD ClangType.junk) ctx with
          | some (inner, ctx2) =>
              (.ok (.New (Ty.new none lay (.Pointer inner)) decl), ctx2)
          | none => (.panicked "Not able to resolve array element?", ctx)
      | .DependentSizedArray =>
          match ift (elem.getD ClangType.junk) ctx with
          | some (inner, ctx2) =>
              (.ok (.New (Ty.new none lay (.Pointer inner)) decl), ctx2)
          | none => (.panicked "Not able to resolve array element?", ctx)
      | .IncompleteArray =>
          match ift (elem.getD ClangType.junk) ctx with
          | some (inner, ctx2) =>
              (.ok (.New (Ty.new none lay (.Pointer inner)) decl), ctx2)
          | none => (.panicked "Not able to resolve array element?", ctx)
      | .FunctionProto =>
          match sft ty decl ctx with
          | some (signature, ctx2) =>
              (.ok (.New (Ty.new none lay (.Function signature)) decl), ctx2)
          | none => (.panicked "Not able to resolve signature?", ctx)
      | .Record => (.err .Recurse, ctx)
      | .Typedef => (.err .Recurse, ctx)
      | .Unexposed => (.err .Recurse, ctx)
      | .Enum => (.err .Recurse, ctx)
      | .ConstantArray =>
          match ift (elem.getD ClangType.junk) ctx with
          | some (inner, ctx2) =>
              (.ok (.New (Ty.new none lay (.Array inner asize)) decl), ctx2)
          | none => (.panicked "Not able to resolve array element?", ctx)
      | .Elaborated =>
          match namedTy with
          | some n => from_clang_ty ift sft n ctx
          | none => (.panicked "elaborated type without a named type", ctx)
      | .Other _ => (.err .Continue, ctx)

/-! Concrete fixtures used by counterexamples and witnesses. -/

/-- A plain integer IR type. -/
def intTy : Ty := Ty.new none none (.Int ⟨0⟩)

/-- A resolver mapping every id to `intTy`. -/
def intEnv : TypeResolver := fun _ => intTy

/-- An opaque one-element array of item 0. -/
def opaqueArrayTy : Ty := ⟨none, none, true, false, .Array 0 1, false⟩

/-- An opaque integer type. -/
def opaqueIntTy : Ty := ⟨none, none, true, false, .Int ⟨0⟩, false⟩

/-- An opaque alias of item 0. -/
def opaqueAliasTy : Ty := ⟨none, none, true, false, .Alias "A" 0, false⟩

/-- A 33-element array of item 0. -/
def arr33Ty : Ty := Ty.new none none (.Array 0 33)

/-- An alias of item 0, the top of an alias chain. -/
def aliasTop : Ty := Ty.new none none (.Alias "A" 0)

/-- A resolver realising the chain alias → alias → Int:
id 0 is an alias of id 1, every other id is `intTy`. -/
def chainEnv : TypeResolver := fun id =>
  match id with
  | 0 => Ty.new none none (.Alias "B" 1)
  | _ => intTy

/-- An unresolved template parameter type. -/
def namedT : Ty := Ty.new none none (.Named "T")

/-- The copy of `t` with its `opaque` flag set to `b` and all else kept. -/
def setOpaque (t : Ty) (b : Bool) : Ty :=
  ⟨t.name, t.layout, b, t.hide, t.kind, t.is_toplevel⟩

/-- The kinds `can_derive_copy_in_array` treats specially instead of
deferring to `can_derive_copy`. -/
def recursesSpecially : TypeKind → Bool
  | .Alias _ _ => true
  | .Array _ _ => true
  | .Named _ => true
  | _ => false

/-- C1: as stated over all types the Array rule fails, because an opaque
array is never derivable: for the opaque 1-element array of a plain integer,
`can_derive_debug` is `false` although `1 ≤ 32` and the element derives
debug. -/
theorem opaque_array_breaks_plain_array_iff :
    ¬ (can_derive_debug intEnv 2 opaqueArrayTy = true ↔
        (1 ≤ RUST_DERIVE_IN_ARRAY_LIMIT ∧
          can_derive_debug intEnv 1 (resolve_type intEnv 0) = true)) := by
  decide

/-- C1 (amended: the `Array(elem, n)` and `Alias(_, target)` rules hold for
non-opaque types): for a non-opaque type of kind `Array(e, n)`, each of
`can_derive_debug`/`can_derive_copy` is the conjunction of `n ≤ 32` with the
same predicate on the resolved element; for kind `Array(e, 33)` both
predicates are `false` whatever the element (opaque or not); for a
non-opaque type of kind `Alias(_, target)`, each predicate equals the same
predicate on the resolved target, hence capabilities propagate transitively
through chains of aliases. -/
theorem array_alias_derive_rules (r : TypeResolver) (fuel : Nat) (t : Ty) :
    (∀ e n, t.kind = .Array e n → t.opaqueFlag = false →
      can_derive_debug r (fuel + 1) t =
        (decide (n ≤ RUST_DERIVE_IN_ARRAY_LIMIT) &&
          can_derive_debug r fuel (resolve_type r e)) ∧
      can_derive_copy r (fuel + 1) t =
        (decide (n ≤ RUST_DERIVE_IN_ARRAY_LIMIT) &&
          can_derive_copy r fuel (resolve_type r e))) ∧
    (∀ e, t.kind = .Array e 33 →
      can_derive_debug r (fuel + 1) t = false ∧
      can_derive_copy r (fuel + 1) t = false) ∧
    (∀ nm target, t.kind = .Alias nm target → t.opaqueFlag = false →
      can_derive_debug r (fuel + 1) t =
        can_derive_debug r fuel (resolve_type r target) ∧
      can_derive_copy r (fuel + 1) t =
        can_derive_copy r fuel (resolve_type r target)) := by
  refine ⟨?_, ?_, ?_⟩
  · intro e n hk hop
    constructor <;>
      simp [can_derive_debug, can_derive_copy, Ty.isOpaque, hk, hop]
  · intro e hk
    constructor <;>
      simp [can_derive_debug, can_derive_copy, Ty.isOpaque, hk,
        RUST_DERIVE_IN_ARRAY_LIMIT]
  · intro nm target hk hop
    constructor <;>
      simp [can_derive_debug, can_derive_copy, Ty.isOpaque, hk, hop]

/-- Witness for C1: the Alias rule applied to the chain alias → alias → Int
(which indeed derives debug), and the Array rule applied to a 33-element
array of integers (which derives neither capability). -/
theorem array_alias_derive_rules_witness :
    (can_derive_debug chainEnv 3 aliasTop =
        can_derive_debug chainEnv 2 (resolve_type chainEnv 0) ∧
      can_derive_copy chainEnv 3 aliasTop =
        can_derive_copy chainEnv 2 (resolve_type chainEnv 0)) ∧
    (can_derive_debug chainEnv 3 arr33Ty = false ∧
      can_derive_copy chainEnv 3 arr33Ty = false) ∧
    can_derive_debug chainEnv 3 aliasTop = true ∧
    can_derive_copy chainEnv 3 aliasTop = true :=
  ⟨(array_alias_derive_rules chainEnv 2 aliasTop).2.2 "A" 0 rfl rfl,
   (array_alias_derive_rules chainEnv 2 arr33Ty).2.1 0 rfl,
   by decide, by decide⟩

/-- C3: `can_derive_copy_in_array` recurses into `Alias` targets and `Array`
elements with itself, answers `false` on `Named` (although `can_derive_copy`
on the same non-opaque `Named` type answers `true`), and equals
`can_derive_copy` of the type on every other kind. -/
theorem copy_in_array_rules (r : TypeResolver) (fuel : Nat) (t : Ty) :
    (∀ nm target, t.kind = .Alias nm target →
      can_derive_copy_in_array r (fuel + 1) t =
        can_derive_copy_in_array r fuel (resolve_type r target)) ∧
    (∀ e n, t.kind = .Array e n →
      can_derive_copy_in_array r (fuel + 1) t =
        can_derive_copy_in_array r fuel (resolve_type r e)) ∧
    (∀ nm, t.kind = .Named nm →
      can_derive_copy_in_array r (fuel + 1) t = false ∧
      (t.opaqueFlag = false → can_derive_copy r (fuel + 1) t = true)) ∧
    (recursesSpecially t.kind = false →
      can_derive_copy_in_array r (fuel + 1) t = can_derive_copy r (fuel + 1) t) := by
  refine ⟨?_, ?_, ?_, ?_⟩
  · intro nm target hk
    simp [can_derive_copy_in_array, hk]
  · intro e n hk
    simp [can_derive_copy_in_array, hk]
  · intro nm hk
    refine ⟨by simp [can_derive_copy_in_array, hk], fun hop => ?_⟩
    simp [can_derive_copy, Ty.isOpaque, hk, hop]
  · intro h
    rcases hk : t.kind <;>
      simp [recursesSpecially, hk] at h ⊢ <;>
      simp [can_derive_copy_in_array, hk]

/-- Witness for C3: on the template parameter `Named "T"`,
`can_derive_copy_in_array` is `false` while `can_derive_copy` is `true`. -/
theorem copy_in_array_rules_witness :
    can_derive_copy_in_array intEnv 2 namedT = false ∧
    can_derive_copy intEnv 2 namedT = true :=
  ⟨((copy_in_array_rules intEnv 1 namedT).2.2.1 "T" rfl).1,
   ((copy_in_array_rules intEnv 1 namedT).2.2.1 "T" rfl).2 rfl⟩

/-- C4: every opaque type, whatever its kind, derives neither debug nor copy
and is reported as having a destructor. -/
theorem opaque_derive_rules (r : TypeResolver) (fuel : Nat) (t : Ty)
    (h : t.isOpaque r = true) :
    can_derive_debug r fuel t = false ∧
    can_derive_copy r fuel t = false ∧
    has_destructor r fuel t = true := by
  cases fuel with
  | zero => exact ⟨rfl, rfl, rfl⟩
  | succ f => simp [can_derive_debug, can_derive_copy, has_destructor, h]

/-- Witness for C4: the opaque integer type. -/
theorem opaque_derive_rules_witness :
    can_derive_debug intEnv 3 opaqueIntTy = false ∧
    can_derive_copy intEnv 3 opaqueIntTy = false ∧
    has_destructor intEnv 3 opaqueIntTy = true :=
  opaque_derive_rules intEnv 3 opaqueIntTy rfl

/-- C10: `can_derive_copy_in_array` never consults the opaque flag on the
kinds it recurses through: on an `Alias` the result is that of the resolved
target whatever the flag, and on an `Array` the result is that of the
resolved element whatever the flag and whatever the length; concretely, the
opaque alias of a non-opaque `Int` has `can_derive_copy_in_array = true`
while `can_derive_copy` on the same type is `false`. -/
theorem copy_in_array_ignores_opaque_flag (r : TypeResolver) (fuel : Nat) (t : Ty)
    (b : Bool) :
    (∀ nm target, t.kind = .Alias nm target →
      can_derive_copy_in_array r (fuel + 1) (setOpaque t b) =
        can_derive_copy_in_array r fuel (resolve_type r target)) ∧
    (∀ e n m, t.kind = .Array e n →
      can_derive_copy_in_array r (fuel + 1)
          ⟨t.name, t.layout, b, t.hide, .Array e m, t.is_toplevel⟩ =
        can_derive_copy_in_array r fuel (resolve_type r e)) ∧
    (can_derive_copy_in_array intEnv 2 opaqueAliasTy = true ∧
      can_derive_copy intEnv 2 opaqueAliasTy = false) := by
  refine ⟨?_, ?_, by decide, by decide⟩
  · intro nm target hk
    simp [can_derive_copy_in_array, setOpaque, hk]
  · intro e n m hk
    simp [can_derive_copy_in_array, setOpaque, hk]

/-- Witness for C10: the Alias rule at the opaque alias of `Int`. -/
theorem copy_in_array_ignores_opaque_flag_witness :
    can_derive_copy_in_array intEnv 2 (setOpaque aliasTop true) =
      can_derive_copy_in_array intEnv 1 (resolve_type intEnv 0) :=
  (copy_in_array_ignores_opaque_flag intEnv 1 aliasTop true).1 "A" 0 rfl

/-! Fuel-independence of the four predicates on resolvers whose `Alias` and
`Array` edges strictly decrease a rank function — the shallow form of "the
recursion terminates when the graph is self-referential only through
`Pointer`/`Reference`". -/

/-- Helper: `can_derive_debug` is fuel-independent above the rank. -/
theorem can_derive_debug_stable_aux (r : TypeResolver) (rank : ItemId → Nat)
    (hacyc : ∀ id, ∀ j ∈ deriveEdges (r id).kind, rank j < rank id) :
    ∀ n id f₁ f₂, rank id ≤ n → rank id < f₁ → rank id < f₂ →
      can_derive_debug r f₁ (r id) = can_derive_debug r f₂ (r id) := by
  intro n
  induction n using Nat.strong_induction_on with
  | _ n ih =>
    intro id f₁ f₂ hn h₁ h₂
    obtain ⟨g₁, rfl⟩ : ∃ g, f₁ = g + 1 := ⟨f₁ - 1, by omega⟩
    obtain ⟨g₂, rfl⟩ : ∃ g, f₂ = g + 1 := ⟨f₂ - 1, by omega⟩
    simp only [can_derive_debug]
    cases hk : (r id).kind
    case Alias nm target =>
      have hlt : rank target < rank id := hacyc id target (by simp [deriveEdges, hk])
      have heq := ih (rank target) (by omega) target g₁ g₂ le_rfl (by omega) (by omega)
      simp only [resolve_type]
      rw [heq]
    case Array e len =>
      have hlt : rank e < rank id := hacyc id e (by simp [deriveEdges, hk])
      have heq := ih (rank e) (by omega) e g₁ g₂ le_rfl (by omega) (by omega)
      simp only [resolve_type]
      rw [heq]
    all_goals rfl

/-- Helper: `can_derive_copy` is fuel-independent above the rank. -/
theorem can_derive_copy_stable_aux (r : TypeResolver) (rank : ItemId → Nat)
    (hacyc : ∀ id, ∀ j ∈ deriveEdges (r id).kind, rank j < rank id) :
    ∀ n id f₁ f₂, rank id ≤ n → rank id < f₁ → rank id < f₂ →
      can_derive_copy r f₁ (r id) = can_derive_copy r f₂ (r id) := by
  intro n
  induction n using Nat.strong_induction_on with
  | _ n ih =>
    intro id f₁ f₂ hn h₁ h₂
    obtain ⟨g₁, rfl⟩ : ∃ g, f₁ = g + 1 := ⟨f₁ - 1, by omega⟩
    obtain ⟨g₂, rfl⟩ : ∃ g, f₂ = g + 1 := ⟨f₂ - 1, by omega⟩
    simp only [can_derive_copy]
    cases hk : (r id).kind
    case Alias nm target =>
      have hlt : rank target < rank id := hacyc id target (by simp [deriveEdges, hk])
      have heq := ih (rank target) (by omega) target g₁ g₂ le_rfl (by omega) (by omega)
      simp only [resolve_type]
      rw [heq]
    case Array e len =>
      have hlt : rank e < rank id := hacyc id e (by simp [deriveEdges, hk])
      have heq := ih (rank e) (by omega) e g₁ g₂ le_rfl (by omega) (by omega)
      simp only [resolve_type]
      rw [heq]
    all_goals rfl

/-- Helper: `has_destructor` is fuel-independent above the rank. -/
theorem has_destructor_stable_aux (r : TypeResolver) (rank : ItemId → Nat)
    (hacyc : ∀ id, ∀ j ∈ deriveEdges (r id).kind, rank j < rank id) :
    ∀ n id f₁ f₂, rank id ≤ n → rank id < f₁ → rank id < f₂ →
      has_destructor r f₁ (r id) = has_destructor r f₂ (r id) := by
  intro n
  induction n using Nat.strong_induction_on with
  | _ n ih =>
    intro id f₁ f₂ hn h₁ h₂
    obtain ⟨g₁, rfl⟩ : ∃ g, f₁ = g + 1 := ⟨f₁ - 1, by omega⟩
    obtain ⟨g₂, rfl⟩ : ∃ g, f₂ = g + 1 := ⟨f₂ - 1, by omega⟩
    simp only [has_destructor]
    cases hk : (r id).kind
    case Alias nm target =>
      have hlt : rank target < rank id := hacyc id target (by simp [deriveEdges, hk])
      have heq := ih (rank target) (by omega) target g₁ g₂ le_rfl (by omega) (by omega)
      simp only [resolve_type]
      rw [heq]
    case Array e len =>
      have hlt : rank e < rank id := hacyc id e (by simp [deriveEdges, hk])
      have heq := ih (rank e) (by omega) e g₁ g₂ le_rfl (by omega) (by omega)
      simp only [resolve_type]
      rw [heq]
    all_goals rfl

/-- Helper: `can_derive_copy_in_array` is fuel-independent above the rank. -/
theorem can_derive_copy_in_array_stable_aux (r : TypeResolver) (rank : ItemId → Nat)
    (hacyc : ∀ id, ∀ j ∈ deriveEdges (r id).kind, rank j < rank id) :
    ∀ n id f₁ f₂, rank id ≤ n → rank id < f₁ → rank id < f₂ →
      can_derive_copy_in_array r f₁ (r id) = can_derive_copy_in_array r f₂ (r id) := by
  intro n
  induction n using Nat.strong_induction_on with
  | _ n ih =>
    intro id f₁ f₂ hn h₁ h₂
    obtain ⟨g₁, rfl⟩ : ∃ g, f₁ = g + 1 := ⟨f₁ - 1, by omega⟩
    obtain ⟨g₂, rfl⟩ : ∃ g, f₂ = g + 1 := ⟨f₂ - 1, by omega⟩
    simp only [can_derive_copy_in_array]
    cases hk : (r id).kind
    case Alias nm target =>
      have hlt : rank target < rank id := hacyc id target (by simp [deriveEdges, hk])
      have heq := ih (rank target) (by omega) target g₁ g₂ le_rfl (by omega) (by omega)
      simp only [resolve_type]
      rw [heq]
    case Array e len =>
      have hlt : rank e < rank id := hacyc id e (by simp [deriveEdges, hk])
      have heq := ih (rank e) (by omega) e g₁ g₂ le_rfl (by omega) (by omega)
      simp only [resolve_type]
      rw [heq]
    case Named nm => rfl
    all_goals
      exact can_derive_copy_stable_aux r rank hacyc (rank id) id (g₁ + 1) (g₂ + 1)
        le_rfl h₁ h₂

/-- C5: on a resolver whose `Alias`-target and `Array`-element edges strictly
decrease some rank (which is exactly what a graph self-referential only
through `Pointer`/`Reference` admits), all four derivability predicates are
fuel-independent once the fuel exceeds the rank — the recursion terminates
with a stable answer; moreover `Pointer` and `Reference` types are never
recursed into: on them each predicate answers from the opaque flag alone,
whatever the resolver says about the pointee. -/
theorem derive_predicates_terminate (r : TypeResolver) (rank : ItemId → Nat)
    (hacyc : ∀ id, ∀ j ∈ deriveEdges (r id).kind, rank j < rank id)
    (id : ItemId) (f₁ f₂ : Nat) (h₁ : rank id < f₁) (h₂ : rank id < f₂) :
    (can_derive_debug r f₁ (resolve_type r id) =
        can_derive_debug r f₂ (resolve_type r id) ∧
      can_derive_copy r f₁ (resolve_type r id) =
        can_derive_copy r f₂ (resolve_type r id) ∧
      can_derive_copy_in_array r f₁ (resolve_type r id) =
        can_derive_copy_in_array r f₂ (resolve_type r id) ∧
      has_destructor r f₁ (resolve_type r id) =
        has_destructor r f₂ (resolve_type r id)) ∧
    (∀ t : Ty, ∀ p : ItemId, t.kind = .Pointer p ∨ t.kind = .Reference p →
      can_derive_debug r f₁ t = !t.opaqueFlag ∧
      can_derive_copy r f₁ t = !t.opaqueFlag ∧
      can_derive_copy_in_array r f₁ t = !t.opaqueFlag ∧
      has_destructor r f₁ t = t.opaqueFlag) := by
  refine ⟨⟨?_, ?_, ?_, ?_⟩, ?_⟩
  · exact can_derive_debug_stable_aux r rank hacyc (rank id) id f₁ f₂ le_rfl h₁ h₂
  · exact can_derive_copy_stable_aux r rank hacyc (rank id) id f₁ f₂ le_rfl h₁ h₂
  · exact can_derive_copy_in_array_stable_aux r rank hacyc (rank id) id f₁ f₂
      le_rfl h₁ h₂
  · exact has_destructor_stable_aux r rank hacyc (rank id) id f₁ f₂ le_rfl h₁ h₂
  · obtain ⟨g₁, rfl⟩ : ∃ g, f₁ = g + 1 := ⟨f₁ - 1, by omega⟩
    rintro t p (hk | hk) <;>
      simp [can_derive_debug, can_derive_copy, can_derive_copy_in_array,
        has_destructor, Ty.isOpaque, hk]

/-- A pointer type whose pointee is itself (item 0). -/
def selfPtrTy : Ty := Ty.new none none (.Pointer 0)

/-- A resolver realising a pointer-to-itself cycle at every id. -/
def selfPtrEnv : TypeResolver := fun _ => selfPtrTy

/-- Witness for C5: the self-referential pointer graph, with the constant
rank 0 (no `Alias`/`Array` edge exists), at fuels 5 and 9. -/
theorem derive_predicates_terminate_witness :
    (can_derive_debug selfPtrEnv 5 (resolve_type selfPtrEnv 0) =
        can_derive_debug selfPtrEnv 9 (resolve_type selfPtrEnv 0) ∧
      can_derive_copy selfPtrEnv 5 (resolve_type selfPtrEnv 0) =
        can_derive_copy selfPtrEnv 9 (resolve_type selfPtrEnv 0) ∧
      can_derive_copy_in_array selfPtrEnv 5 (resolve_type selfPtrEnv 0) =
        can_derive_copy_in_array selfPtrEnv 9 (resolve_type selfPtrEnv 0) ∧
      has_destructor selfPtrEnv 5 (resolve_type selfPtrEnv 0) =
        has_destructor selfPtrEnv 9 (resolve_type selfPtrEnv 0)) ∧
    (can_derive_debug selfPtrEnv 5 selfPtrTy = !selfPtrTy.opaqueFlag ∧
      can_derive_copy selfPtrEnv 5 selfPtrTy = !selfPtrTy.opaqueFlag ∧
      can_derive_copy_in_array selfPtrEnv 5 selfPtrTy = !selfPtrTy.opaqueFlag ∧
      has_destructor selfPtrEnv 5 selfPtrTy = selfPtrTy.opaqueFlag) :=
  ⟨(derive_predicates_terminate selfPtrEnv (fun _ => 0)
      (by intro id j hj; simp [selfPtrEnv, selfPtrTy, Ty.new, deriveEdges] at hj)
      0 5 9 (by decide) (by decide)).1,
   (derive_predicates_terminate selfPtrEnv (fun _ => 0)
      (by intro id j hj; simp [selfPtrEnv, selfPtrTy, Ty.new, deriveEdges] at hj)
      0 5 9 (by decide) (by decide)).2 selfPtrTy 0 (Or.inl rfl)⟩

/-! Fixtures and theorems for the ingestion claims. -/

/-- A foreign type of invalid kind, absent from every table below. -/
def invalidClangTy : ClangType := .mk .Invalid none 7 none none 0 none "bad"

/-- A context whose dedup table is empty. -/
def emptyCtx : BindgenContext := ⟨fun _ => none⟩

/-- A context whose dedup table maps every description to item 42. -/
def memoCtx : BindgenContext := ⟨fun _ => some 42⟩

/-- A model of `Item::from_ty` for concrete checks: resolves every nested
foreign type to item 0 and leaves the context untouched. -/
def constItemFromTy : ItemFromTy := fun _ ctx => some (0, ctx)

/-- A model of `FunctionSig::from_ty` for concrete checks. -/
def constSigFromTy : SigFromTy := fun _ _ ctx => some (⟨0⟩, ctx)

/-- A foreign integer element type of unsupported kind. -/
def intElemClangTy : ClangType := .mk (.Other 5) none 2 none none 0 none "int"

/-- A constant-size four-element foreign array of `intElemClangTy`. -/
def constArrClangTy : ClangType :=
  .mk .ConstantArray none 3 none (some intElemClangTy) 4 none "int [4]"

/-- An incomplete foreign array of `intElemClangTy`. -/
def incompleteArrClangTy : ClangType :=
  .mk .IncompleteArray none 3 none (some intElemClangTy) 0 none "int []"

/-- A foreign record type. -/
def recordClangTy : ClangType := .mk .Record none 9 none none 0 none "Foo"

/-- A foreign vector-extension type, outside the supported kind set. -/
def vectorClangTy : ClangType :=
  .mk (.Other 99) none 4 none none 0 none "__v4si"

/-- An elaborated spelling (`struct Foo`) wrapping `recordClangTy`. -/
def elaboratedClangTy : ClangType :=
  .mk .Elaborated none 9 none none 0 (some recordClangTy) "struct Foo"

/-- C2: at an invalid foreign type (absent from the dedup table) the code
does not return the fatal variant of its declared fallible result: it
abandons the call through the ad hoc `return None;` escape (modelled as
`noneEscape`), which is neither an `err` nor an `ok` of the declared
`Result` type — the defect the spec's design notes call out. -/
theorem invalid_type_none_escape :
    (from_clang_ty constItemFromTy constSigFromTy invalidClangTy emptyCtx).1 =
      .noneEscape "bad" ∧
    (∀ e : ParseError,
      (from_clang_ty constItemFromTy constSigFromTy invalidClangTy emptyCtx).1 ≠
        .err e) ∧
    (∀ tr : TypeResult,
      (from_clang_ty constItemFromTy constSigFromTy invalidClangTy emptyCtx).1 ≠
        .ok tr) := by
  have hred : from_clang_ty constItemFromTy constSigFromTy invalidClangTy
      emptyCtx = (.noneEscape "bad", emptyCtx) := by
    simp [from_clang_ty, invalidClangTy, emptyCtx]
  refine ⟨by rw [hred], fun e h => ?_, fun tr h => ?_⟩ <;>
    rw [hred] at h <;> exact FromClangResult.noConfusion h

/-- C6: the dedup lookup is checked first, unconditionally: whenever
`builtin_or_resolved_ty` yields an id, ingestion returns `AlreadyResolved`
of that id with the context untouched — whatever the foreign kind, before
any new `Type` is built — so ingesting the same description twice yields the
identical id both times and creates no duplicate. -/
theorem dedup_checked_first (ift : ItemFromTy) (sft : SigFromTy)
    (ty : ClangType) (ctx : BindgenContext) (id : ItemId)
    (h : ctx.builtin_or_resolved_ty ty = some id) :
    from_clang_ty ift sft ty ctx = (.ok (.AlreadyResolved id), ctx) ∧
    from_clang_ty ift sft ty (from_clang_ty ift sft ty ctx).2 =
      (.ok (.AlreadyResolved id), ctx) := by
  obtain ⟨k, l, d, p, e, s, nm, sp⟩ := ty
  refine ⟨?_, ?_⟩ <;> cases k <;>
    first
      | simp [from_clang_ty, h]
      | (cases nm <;> simp [from_clang_ty, h])

/-- Witness for C6: an invalid-kind description that the table already maps
to item 42 short-circuits to `AlreadyResolved 42` on both ingestions. -/
theorem dedup_checked_first_witness :
    from_clang_ty constItemFromTy constSigFromTy invalidClangTy memoCtx =
      (.ok (.AlreadyResolved 42), memoCtx) ∧
    from_clang_ty constItemFromTy constSigFromTy invalidClangTy
        (from_clang_ty constItemFromTy constSigFromTy invalidClangTy memoCtx).2 =
      (.ok (.AlreadyResolved 42), memoCtx) :=
  dedup_checked_first constItemFromTy constSigFromTy invalidClangTy memoCtx 42 rfl

/-- C7: the variable-length, dependent-sized and incomplete foreign array
kinds are degraded to `Pointer` of the ingested element, and the
constant-size kind becomes `Array` of the ingested element with the declared
element count as length. -/
theorem array_kinds_mapping (ift : ItemFromTy) (sft : SigFromTy)
    (ty : ClangType) (ctx : BindgenContext)
    (hmiss : ctx.builtin_or_resolved_ty ty = none)
    (inner : ItemId) (ctx2 : BindgenContext)
    (hinner : ift ty.elem_type ctx = some (inner, ctx2)) :
    ((ty.kind = .VariableArray ∨ ty.kind = .DependentSizedArray ∨
        ty.kind = .IncompleteArray) →
      from_clang_ty ift sft ty ctx =
        (.ok (.New (Ty.new none ty.fallible_layout (.Pointer inner))
          ty.declaration), ctx2)) ∧
    (ty.kind = .ConstantArray →
      from_clang_ty ift sft ty ctx =
        (.ok (.New (Ty.new none ty.fallible_layout (.Array inner ty.array_size))
          ty.declaration), ctx2)) := by
  obtain ⟨k, l, d, p, e, s, nm, sp⟩ := ty
  simp only [ClangType.kind, ClangType.elem_type, ClangType.fallible_layout,
    ClangType.declaration, ClangType.array_size] at *
  constructor
  · rintro (rfl | rfl | rfl) <;> simp [from_clang_ty, hmiss, hinner]
  · rintro rfl
    simp [from_clang_ty, hmiss, hinner]

/-- Witness for C7: a constant four-element array ingests to `Array(0, 4)`
and an incomplete array of the same element ingests to `Pointer(0)`. -/
theorem array_kinds_mapping_witness :
    from_clang_ty constItemFromTy constSigFromTy constArrClangTy emptyCtx =
      (.ok (.New (Ty.new none constArrClangTy.fallible_layout
        (.Array 0 constArrClangTy.array_size)) constArrClangTy.declaration),
        emptyCtx) ∧
    from_clang_ty constItemFromTy constSigFromTy incompleteArrClangTy emptyCtx =
      (.ok (.New (Ty.new none incompleteArrClangTy.fallible_layout
        (.Pointer 0)) incompleteArrClangTy.declaration), emptyCtx) :=
  ⟨(array_kinds_mapping constItemFromTy constSigFromTy constArrClangTy emptyCtx
      rfl 0 emptyCtx rfl).2 rfl,
   (array_kinds_mapping constItemFromTy constSigFromTy incompleteArrClangTy
      emptyCtx rfl 0 emptyCtx rfl).1 (Or.inr (Or.inr rfl))⟩

/-- C8: record, typedef, unexposed and enum foreign kinds yield the
recoverable "retry via declaration" failure, and every kind outside the
supported set yields the recoverable "skip" failure; in both cases the
context comes back untouched and no new `Type` is built. -/
theorem declaration_kinds_and_unsupported (ift : ItemFromTy) (sft : SigFromTy)
    (ty : ClangType) (ctx : BindgenContext)
    (hmiss : ctx.builtin_or_resolved_ty ty = none) :
    ((ty.kind = .Record ∨ ty.kind = .Typedef ∨ ty.kind = .Unexposed ∨
        ty.kind = .Enum) →
      from_clang_ty ift sft ty ctx = (.err .Recurse, ctx)) ∧
    (∀ code, ty.kind = .Other code →
      from_clang_ty ift sft ty ctx = (.err .Continue, ctx)) := by
  obtain ⟨k, l, d, p, e, s, nm, sp⟩ := ty
  simp only [ClangType.kind] at *
  constructor
  · rintro (rfl | rfl | rfl | rfl) <;> simp [from_clang_ty, hmiss]
  · rintro code rfl
    simp [from_clang_ty, hmiss]

/-- Witness for C8: a record description retries via its declaration and a
vector-extension description is skipped, both without touching the
context. -/
theorem declaration_kinds_and_unsupported_witness :
    from_clang_ty constItemFromTy constSigFromTy recordClangTy emptyCtx =
      (.err .Recurse, emptyCtx) ∧
    from_clang_ty constItemFromTy constSigFromTy vectorClangTy emptyCtx =
      (.err .Continue, emptyCtx) :=
  ⟨(declaration_kinds_and_unsupported constItemFromTy constSigFromTy
      recordClangTy emptyCtx rfl).1 (Or.inl rfl),
   (declaration_kinds_and_unsupported constItemFromTy constSigFromTy
      vectorClangTy emptyCtx rfl).2 99 rfl⟩

/-- C9: ingesting an elaborated foreign type (absent from the dedup table)
is exactly re-running ingestion on its de-sugared named type, in the same
context. -/
theorem elaborated_unwrap (ift : ItemFromTy) (sft : SigFromTy)
    (ty : ClangType) (ctx : BindgenContext)
    (hmiss : ctx.builtin_or_resolved_ty ty = none)
    (n : ClangType) (hn : ty.namedOpt = some n) (hk : ty.kind = .Elaborated) :
    from_clang_ty ift sft ty ctx = from_clang_ty ift sft n ctx := by
  obtain ⟨k, l, d, p, e, s, nmo, sp⟩ := ty
  simp only [ClangType.kind, ClangType.namedOpt] at hn hk
  subst hk
  subst hn
  conv_lhs => rw [from_clang_ty]
  simp [hmiss]

/-- Witness for C9: ingesting `struct Foo` (elaborated) equals ingesting the
bare record type `Foo`. -/
theorem elaborated_unwrap_witness :
    from_clang_ty constItemFromTy constSigFromTy elaboratedClangTy emptyCtx =
      from_clang_ty constItemFromTy constSigFromTy recordClangTy emptyCtx :=
  elaborated_unwrap constItemFromTy constSigFromTy elaboratedClangTy emptyCtx
    rfl recordClangTy rfl rfl

end Bindgen
